import Mathlib

/-!
Verification of the phone-book contact manager (`src/main.py`): data model,
validation, store, query engine and CSV import/export field mapping,
shallowly embedded in Lean, with theorems settling the specification claims.
-/

namespace PhoneBook

/-- A Python value handed to `Contact.__init__`: a string, `None`, or any
other (non-string, non-`None`) value. -/
inductive PyVal where
  | str (s : String)
  | none
  | other
deriving DecidableEq, Repr

/-- The test `isinstance(v, str)` for the embedded Python values. -/
def PyVal.isStr : PyVal → Bool
  | .str _ => true
  | _ => false

/-- The test `v is None` for the embedded Python values. -/
def PyVal.isNone : PyVal → Bool
  | .none => true
  | _ => false

/-- The underlying string of a `PyVal.str`; dummy `""` otherwise (only read
under an `isStr` guard, mirroring how the source reads the value only after
the `isinstance` check). -/
def PyVal.getStr : PyVal → String
  | .str s => s
  | _ => ""

/-- The class `ContactValidationException` from `src/main.py`: carries a cause
(`message`) and a suggested `solution`. -/
structure ContactValidationException where
  message : String
  solution : String
deriving DecidableEq, Repr

namespace ContactValidationException

/-- Static constructor `not_str_x` from the source. -/
def not_str_x (x : String) : ContactValidationException :=
  ⟨x ++ " value is not a string", "make sure " ++ x ++ " value is a string"⟩

/-- Static constructor `ContactValidationException.not_str_name()`. -/
def not_str_name : ContactValidationException := not_str_x "name"

/-- Static constructor `ContactValidationException.not_str_phone()`. -/
def not_str_phone : ContactValidationException := not_str_x "phone"

/-- Static constructor `ContactValidationException.not_str_email()`. -/
def not_str_email : ContactValidationException := not_str_x "email"

/-- Static constructor `empty_x` from the source. -/
def empty_x (x : String) : ContactValidationException :=
  ⟨x ++ " is empty", "please provide a non-empty " ++ x⟩

/-- Static constructor `ContactValidationException.empty_name()`. -/
def empty_name : ContactValidationException := empty_x "name"

/-- Static constructor `ContactValidationException.empty_phone()`. -/
def empty_phone : ContactValidationException := empty_x "phone"

/-- Static constructor `ContactValidationException.malformed_email()`. -/
def malformed_email : ContactValidationException :=
  ⟨"email is malformed", "please provide a valid email"⟩

/-- Rendering `__str__`: formats as `"<cause>; <solution>"`. -/
def render (e : ContactValidationException) : String :=
  e.message ++ "; " ++ e.solution

end ContactValidationException

/-- Splitting a character list on a separator (the list-level behaviour of
Python's `str.split` with an explicit separator): always returns at least
one piece, and one extra piece per separator occurrence. -/
def splitOnChar (sep : Char) : List Char → List (List Char)
  | [] => [[]]
  | c :: rest =>
    match splitOnChar sep rest with
    | [] => [[]]
    | h :: t => if c = sep then [] :: h :: t else (c :: h) :: t

/-- Modelled from the spec: the external `validate_email` dependency (the
library is not part of this repository). Per the spec, a standard
email-syntax check: local-part@domain with the domain containing a dot;
whitespace and most malformed forms rejected. -/
def validate_email (e : String) : Bool :=
  match splitOnChar '@' e.data with
  | [lp, dom] =>
    !lp.isEmpty && !dom.isEmpty &&
    lp.all (fun ch => !ch.isWhitespace) &&
    dom.all (fun ch => !ch.isWhitespace) &&
    dom.any (fun ch => ch = '.') &&
    dom.head? != some '.' && dom.getLast? != some '.'
  | _ => false

/-- A validated contact record: `email = Option.none` embeds Python `None`. -/
structure Contact where
  name : String
  phone : String
  email : Option String
deriving DecidableEq, Repr

/-- The constructor `Contact.__init__` from `src/main.py`: the six checks in source order
(type of name, type of phone, type of email, emptiness of name, emptiness of
phone, email syntax), raising the first failing check's exception. -/
def Contact.init (name phone email : PyVal) : Except ContactValidationException Contact :=
  if !name.isStr then
    .error ContactValidationException.not_str_name
  else if !phone.isStr then
    .error ContactValidationException.not_str_phone
  else if !email.isStr && !email.isNone then
    .error ContactValidationException.not_str_email
  else if name.getStr.length = 0 then
    .error ContactValidationException.empty_name
  else if phone.getStr.length = 0 then
    .error ContactValidationException.empty_phone
  else if email.isStr && email.getStr.length > 0 && !validate_email email.getStr then
    .error ContactValidationException.malformed_email
  else
    .ok { name := name.getStr, phone := phone.getStr,
          email := if email.isStr then some email.getStr else Option.none }

/-- The global store: the insertion-ordered dictionary `contacts` (a Python
dict preserves insertion order; embedded as an association list) and the
counter `next_id`. -/
structure Store where
  contacts : List (Nat × Contact)
  next_id : Nat
deriving DecidableEq, Repr

/-- The initial state: `contacts = {}`, `next_id = 0`. -/
def initStore : Store := ⟨[], 0⟩

/-- The mutation performed by `action_create` (and by a successful import
row): validate; on success insert under `next_id` and increment the counter,
on failure leave the store untouched and surface the exception. -/
def create (st : Store) (name phone email : PyVal) :
    Store × Option ContactValidationException :=
  match Contact.init name phone email with
  | .ok c => (⟨st.contacts ++ [(st.next_id, c)], st.next_id + 1⟩, Option.none)
  | .error e => (st, some e)

/-- Dictionary lookup `contacts[idd]`; `Option.none` embeds the `KeyError`
(`NotFound`) raised on an absent key. -/
def get (st : Store) (idd : Nat) : Option Contact :=
  (st.contacts.find? (fun p => p.1 = idd)).map (fun p => p.2)

/-- Deletion `del contacts[idd]`; `Option.none` embeds the `KeyError` (`NotFound`)
raised on an absent key. -/
def deleteContact (st : Store) (idd : Nat) : Option Store :=
  if st.contacts.any (fun p => p.1 = idd) then
    some ⟨st.contacts.filter (fun p => p.1 ≠ idd), st.next_id⟩
  else
    Option.none

/-- List-level prefix test (with character equality), used to express
Python's substring containment. -/
def prefMatch : List Char → List Char → Bool
  | [], _ => true
  | _ :: _, [] => false
  | x :: xs, y :: ys => (x = y) && prefMatch xs ys

/-- Python's substring containment on character lists: the needle is a
prefix of some suffix of the hay (including the empty suffix). -/
def pyIn (nd : List Char) : List Char → Bool
  | [] => prefMatch nd []
  | c :: rest => prefMatch nd (c :: rest) || pyIn nd rest

/-- Python's substring test `needle in hay` on strings. -/
def isSubstr (needle hay : String) : Bool :=
  pyIn needle.data hay.data

/-- Python's `str.lower()`: each character lower-cased. -/
def pyLower (s : String) : String :=
  ⟨s.data.map Char.toLower⟩

/-- The per-contact test of `query`: the lowered query is contained in the
lowered name, else in the lowered phone, else (when the email is present) in
the lowered email — the `if`/`elif` chain of the source loop. -/
def contactMatches (ql : String) (c : Contact) : Bool :=
  if isSubstr ql (pyLower c.name) then true
  else if isSubstr ql (pyLower c.phone) then true
  else
    match c.email with
    | some e => isSubstr ql (pyLower e)
    | Option.none => false

/-- The function `query` from `src/main.py`: lower-case the query, then collect (in the
dict's insertion order) the ids of the contacts the per-contact test
accepts. -/
def query (st : Store) (q : String) : List Nat :=
  ((st.contacts.filter (fun p => contactMatches (pyLower q) p.2)).map (fun p => p.1))

/-- The email column value written by `csv.DictWriter`: the stored string,
with Python `None` serialized as the empty field. -/
def emailField : Option String → String
  | some e => e
  | Option.none => ""

/-- Export `action_export`, at the level of CSV records (the `csv` module's
writing/reading mechanics round-trip field strings exactly): one row
`[name, phone, email]` per stored contact, in insertion order. The header
row is consumed by the reader and is not part of the record-level model. -/
def action_export (st : Store) : List (List String) :=
  st.contacts.map (fun p => [p.2.name, p.2.phone, emailField p.2.email])

/-- One row of `action_import`'s loop: `row.get("name")`/`row.get("phone")`/
`row.get("email")` are the row's fields by header position (`Option.none`
when the row is shorter, matching `csv.DictReader`'s `restval=None`); a
`None` name or phone raises the corresponding `empty` exception before
construction; otherwise the contact is built and, on success, stored under a
fresh id. Returns the (possibly unchanged) store and the row's exception,
if any. -/
def importRow (st : Store) (row : List String) :
    Store × Option ContactValidationException :=
  match row.get? 0 with
  | Option.none => (st, some ContactValidationException.empty_name)
  | some name =>
    match row.get? 1 with
    | Option.none => (st, some ContactValidationException.empty_phone)
    | some phone =>
      let email : PyVal :=
        match row.get? 2 with
        | some e => PyVal.str e
        | Option.none => PyVal.none
      create st (PyVal.str name) (PyVal.str phone) email

/-- One iteration of `action_import`'s loop on the accumulated
`(store, count, any_row_error)`: a failing row is skipped (the exception is
caught) and sets the error flag, a succeeding row bumps the imported
count. -/
def importStep (acc : Store × Nat × Bool) (row : List String) :
    Store × Nat × Bool :=
  match importRow acc.1 row with
  | (st1, some _) => (st1, acc.2.1, true)
  | (st1, Option.none) => (st1, acc.2.1 + 1, acc.2.2)

/-- Import `action_import`, at the level of CSV records: `csv.DictReader` skips
blank rows (empty records); each remaining row is processed independently by
`importStep`. Returns the final store, the imported count, and the
`any_row_error` flag. -/
def action_import (st : Store) (rows : List (List String)) :
    Store × Nat × Bool :=
  (rows.filter (fun r => r ≠ [])).foldl importStep (st, 0, false)

/-- The store-affecting surface of the menu actions (list/search/export read
the store without mutating it). -/
inductive Action where
  | createC (name phone email : PyVal)
  | deleteC (idd : Nat)
  | searchC (q : String)
  | exportC
  | importC (rows : List (List String))

/-- The effect of one menu action on the store. `action_delete` deletes an
id produced by `query` (always present), but the embedding lets any id be
attempted, with `KeyError` leaving the store unchanged. -/
def applyAction (st : Store) : Action → Store
  | .createC n p e => (create st n p e).1
  | .deleteC idd =>
    match deleteContact st idd with
    | some st1 => st1
    | Option.none => st
  | .searchC _ => st
  | .exportC => st
  | .importC rows => (action_import st rows).1

/-- The store after a sequence of menu actions, from the initial state. -/
def runActions (acts : List Action) : Store :=
  acts.foldl applyAction initStore

/-- The spec's list of validation checks, in its fixed order (type-check
name, type-check phone, type-check email, empty-check name, empty-check
phone, syntax-check email), each contributing its exception when its failure
condition holds. -/
def failingChecks (name phone email : PyVal) : List ContactValidationException :=
  (if !name.isStr then [ContactValidationException.not_str_name] else []) ++
  (if !phone.isStr then [ContactValidationException.not_str_phone] else []) ++
  (if !email.isStr && !email.isNone then [ContactValidationException.not_str_email] else []) ++
  (if name.isStr ∧ name.getStr.length = 0 then [ContactValidationException.empty_name] else []) ++
  (if phone.isStr ∧ phone.getStr.length = 0 then [ContactValidationException.empty_phone] else []) ++
  (if email.isStr ∧ email.getStr.length > 0 ∧ validate_email email.getStr = false then
    [ContactValidationException.malformed_email] else [])

/-- C1: the validator's behaviour is determined by the first failing check
of the spec's fixed order: when some check fails, the raised exception is
exactly the earliest failing check's one (and only that one); when none
fails, construction succeeds. -/
theorem contact_init_first_failing_check_wins (n p e : PyVal) :
    Contact.init n p e =
      ((failingChecks n p e).head?).elim
        (Except.ok ⟨n.getStr, p.getStr, if e.isStr then some e.getStr else Option.none⟩)
        Except.error := by
  cases n <;> cases p <;> cases e <;>
    simp only [Contact.init, failingChecks, PyVal.isStr, PyVal.isNone, PyVal.getStr,
      Bool.not_true, Bool.not_false, Bool.and_self, Bool.true_and, Bool.false_and,
      Bool.and_true, Bool.and_false, if_true, if_false] <;>
    split_ifs <;>
    simp_all [Option.elim]

/-- C1 witness: at the concrete input (name `42`, phone `None`, email
`"bad"`), several checks fail and the raised exception is the first one's. -/
theorem contact_init_first_failing_check_wins_witness :
    Contact.init PyVal.other PyVal.none (PyVal.str "bad") =
      ((failingChecks PyVal.other PyVal.none (PyVal.str "bad")).head?).elim
        (Except.ok ⟨(PyVal.other).getStr, (PyVal.none).getStr, some "bad"⟩)
        Except.error :=
  contact_init_first_failing_check_wins PyVal.other PyVal.none (PyVal.str "bad")

/-- The spec's wording of a query match: the lower-cased query is a
substring of the lower-cased name, or of the lower-cased phone, or (only
when the email is present) of the lower-cased email. -/
def specMatches (q : String) (c : Contact) : Bool :=
  isSubstr (pyLower q) (pyLower c.name) || isSubstr (pyLower q) (pyLower c.phone) ||
    (match c.email with
     | some e => isSubstr (pyLower q) (pyLower e)
     | Option.none => false)

/-- The source's `if`/`elif` chain decides exactly the spec's disjunction. -/
theorem contactMatches_eq_spec (ql : String) (c : Contact) :
    contactMatches ql c =
      (isSubstr ql (pyLower c.name) || isSubstr ql (pyLower c.phone) ||
        (match c.email with
         | some e => isSubstr ql (pyLower e)
         | Option.none => false)) := by
  unfold contactMatches
  by_cases h1 : isSubstr ql (pyLower c.name) = true <;>
    by_cases h2 : isSubstr ql (pyLower c.phone) = true <;>
    cases c.email <;> simp_all

/-- C3: `query` returns exactly the ids of the contacts some lowered field
of which contains the lowered query as a substring — includes every such
contact and excludes every other — and it lists them in the store's
insertion order (the order of the filtered association list). -/
theorem query_returns_exactly_matching_ids (st : Store) (q : String) :
    query st q = (st.contacts.filter (fun p => specMatches q p.2)).map (fun p => p.1) := by
  unfold query specMatches
  congr 1
  apply List.filter_congr
  intro p _
  exact contactMatches_eq_spec (pyLower q) p.2

/-- The empty needle is a prefix of every character list. -/
theorem prefMatch_nil (l : List Char) : prefMatch [] l = true := by
  cases l <;> rfl

/-- The empty string is a (Python) substring of every string. -/
theorem isSubstr_empty_left (s : String) : isSubstr "" s = true := by
  unfold isSubstr
  show pyIn [] s.data = true
  induction s.data with
  | nil => rfl
  | cons c rest ih => simp [pyIn, prefMatch_nil, ih]

/-- C9: called with the empty query (bypassing the caller-side guard),
`query` returns every stored contact's id, in insertion order. -/
theorem query_empty_string_returns_all_ids (st : Store) :
    query st "" = st.contacts.map (fun p => p.1) := by
  unfold query
  have h : ∀ p ∈ st.contacts, contactMatches (pyLower "") p.2 = true := by
    intro p _
    have ht : pyLower "" = "" := rfl
    rw [ht]
    unfold contactMatches
    simp [isSubstr_empty_left]
  rw [List.filter_eq_self.mpr h]

/-- A successful construction yields exactly the record written by the last
line of `Contact.__init__`: the two strings verbatim, and the email argument
verbatim (`None` stays `None`, a string stays that string). -/
theorem contact_init_ok_shape (n p e : PyVal) (c : Contact)
    (h : Contact.init n p e = .ok c) :
    c = ⟨n.getStr, p.getStr, if e.isStr then some e.getStr else Option.none⟩ := by
  unfold Contact.init at h
  split_ifs at h <;> simp_all

/-- C10: construction stores the email verbatim: a `None` email is stored as
`None`, an empty-string email as the empty string, and the two records
remain distinguishable. -/
theorem contact_init_email_verbatim (n p s : String) :
    (∀ c, Contact.init (PyVal.str n) (PyVal.str p) PyVal.none = .ok c →
      c.email = Option.none) ∧
    (∀ c, Contact.init (PyVal.str n) (PyVal.str p) (PyVal.str s) = .ok c →
      c.email = some s) ∧
    (⟨n, p, some ""⟩ : Contact) ≠ ⟨n, p, Option.none⟩ := by
  refine ⟨?_, ?_, ?_⟩
  · intro c h
    rw [contact_init_ok_shape _ _ _ _ h]
    simp [PyVal.isStr]
  · intro c h
    rw [contact_init_ok_shape _ _ _ _ h]
    simp [PyVal.isStr, PyVal.getStr]
  · intro h
    simpa using congrArg Contact.email h

/-- C10 witness: concrete constructions with a `None` email and with an
empty-string email store those exact values. -/
theorem contact_init_email_verbatim_witness :
    (⟨"Ada", "5", Option.none⟩ : Contact).email = Option.none ∧
    (⟨"Ada", "5", some ""⟩ : Contact).email = some "" :=
  ⟨(contact_init_email_verbatim "Ada" "5" "").1 ⟨"Ada", "5", Option.none⟩ rfl,
   (contact_init_email_verbatim "Ada" "5" "").2.1 ⟨"Ada", "5", some ""⟩ rfl⟩

/-- A failing `create` leaves the store untouched and surfaces exactly the
validator's exception. -/
theorem create_error_eq (st : Store) (n p e : PyVal) (st1 : Store)
    (er : ContactValidationException) (h : create st n p e = (st1, some er)) :
    st1 = st ∧ Contact.init n p e = .error er := by
  unfold create at h
  cases hi : Contact.init n p e <;> rw [hi] at h
  · injection h with h1 h2
    injection h2 with h3
    exact ⟨h1.symm, by rw [h3]⟩
  · injection h with h1 h2
    cases h2

/-- A failing import row leaves the store untouched. -/
theorem importRow_error_eq (st : Store) (row : List String) (st1 : Store)
    (er : ContactValidationException) (h : importRow st row = (st1, some er)) :
    st1 = st := by
  unfold importRow at h
  split at h
  · injection h with h1 _
    exact h1.symm
  · split at h
    · injection h with h1 _
      exact h1.symm
    · exact (create_error_eq _ _ _ _ _ _ h).1

/-- C5: `create` is atomic on validation failure: the validator's error is
propagated unchanged and neither the contacts mapping nor `next_id` is
mutated; the same holds per row during import. -/
theorem create_atomic_on_validation_error (st : Store) (n p e : PyVal)
    (row : List String) :
    (∀ er, Contact.init n p e = .error er → create st n p e = (st, some er)) ∧
    (∀ st1 er, create st n p e = (st1, some er) → st1 = st) ∧
    (∀ st1 er, importRow st row = (st1, some er) → st1 = st) := by
  refine ⟨?_, ?_, ?_⟩
  · intro er h
    unfold create
    rw [h]
  · intro st1 er h
    exact (create_error_eq _ _ _ _ _ _ h).1
  · intro st1 er h
    exact importRow_error_eq _ _ _ _ h

/-- C5 witness: creating with an empty name on the initial store raises the
empty-name error and leaves the store untouched, as does an import row with
a missing phone column. -/
theorem create_atomic_on_validation_error_witness :
    create initStore (PyVal.str "") (PyVal.str "5") PyVal.none =
      (initStore, some ContactValidationException.empty_name) ∧
    (importRow initStore ["Ann"]).1 = initStore :=
  ⟨(create_atomic_on_validation_error initStore (PyVal.str "") (PyVal.str "5")
      PyVal.none ["Ann"]).1 ContactValidationException.empty_name rfl,
   (create_atomic_on_validation_error initStore (PyVal.str "") (PyVal.str "5")
      PyVal.none ["Ann"]).2.2 initStore ContactValidationException.empty_phone rfl⟩

/-- Removing the entries keyed `idd` does not change lookups at other
keys. -/
theorem find_filter_ne (l : List (Nat × Contact)) (j idd : Nat) (hj : j ≠ idd) :
    (l.filter (fun p => p.1 ≠ idd)).find? (fun p => p.1 = j) =
      l.find? (fun p => p.1 = j) := by
  induction l with
  | nil => rfl
  | cons a t ih =>
    by_cases ha : a.1 = idd
    · have haj : ¬ (a.1 = j) := fun hc => hj (hc ▸ ha)
      rw [List.filter_cons_of_neg (by simpa using ha),
        List.find?_cons_of_neg _ (by simpa using haj), ih]
    · by_cases haj : a.1 = j
      · rw [List.filter_cons_of_pos (by simpa using ha),
          List.find?_cons_of_pos _ (by simpa using haj),
          List.find?_cons_of_pos _ (by simpa using haj)]
      · rw [List.filter_cons_of_pos (by simpa using ha),
          List.find?_cons_of_neg _ (by simpa using haj),
          List.find?_cons_of_neg _ (by simpa using haj), ih]

/-- C8: a successful `delete(id)` removes exactly that entry: a following
`get(id)` fails with `NotFound` (`KeyError`), a second `delete(id)` fails
with `NotFound` too, every other id resolves as before, and the counter is
untouched. -/
theorem delete_then_get_and_redelete_fail (st st1 : Store) (idd : Nat)
    (h : deleteContact st idd = some st1) :
    get st1 idd = Option.none ∧
    deleteContact st1 idd = Option.none ∧
    (∀ j, j ≠ idd → get st1 j = get st j) ∧
    st1.next_id = st.next_id := by
  unfold deleteContact at h
  split at h
  · injection h with h1
    subst h1
    refine ⟨?_, ?_, ?_, rfl⟩
    · unfold get
      rw [List.find?_eq_none.mpr]
      · rfl
      · intro x hx
        simp only [List.mem_filter] at hx
        simpa using hx.2
    · unfold deleteContact
      rw [if_neg]
      intro hcon
      rw [List.any_eq_true] at hcon
      obtain ⟨x, hx, hxi⟩ := hcon
      rw [List.mem_filter] at hx
      exact (of_decide_eq_true hx.2) (of_decide_eq_true hxi)
    · intro j hj
      unfold get
      rw [find_filter_ne _ _ _ hj]
  · cases h

/-- C8 witness: on a two-contact store, deleting id 0 makes `get 0` and a
second `delete 0` fail while id 1 still resolves to its record. -/
theorem delete_then_get_and_redelete_fail_witness :
    get ⟨[(1, ⟨"Bo", "7", Option.none⟩)], 2⟩ 0 = Option.none ∧
    deleteContact ⟨[(1, ⟨"Bo", "7", Option.none⟩)], 2⟩ 0 = Option.none ∧
    get ⟨[(1, ⟨"Bo", "7", Option.none⟩)], 2⟩ 1 =
      get ⟨[(0, ⟨"Ada", "5", Option.none⟩), (1, ⟨"Bo", "7", Option.none⟩)], 2⟩ 1 :=
  have h := delete_then_get_and_redelete_fail
    ⟨[(0, ⟨"Ada", "5", Option.none⟩), (1, ⟨"Bo", "7", Option.none⟩)], 2⟩
    ⟨[(1, ⟨"Bo", "7", Option.none⟩)], 2⟩ 0 (by decide)
  ⟨h.1, h.2.1, h.2.2.1 1 (by decide)⟩

/-- The spec's record invariant: name and phone non-empty; email absent,
empty, or syntactically valid. -/
def contactWF (c : Contact) : Bool :=
  (0 < c.name.length) && (0 < c.phone.length) &&
    (match c.email with
     | Option.none => true
     | some e => (e.length = 0) || validate_email e)

/-- The record invariant, over every contact held in the store. -/
def StoreWF (st : Store) : Bool :=
  st.contacts.all (fun p => contactWF p.2)

/-- Every record the validator lets through satisfies the record
invariant. -/
theorem contact_init_ok_wf (n p e : PyVal) (c : Contact)
    (h : Contact.init n p e = .ok c) : contactWF c = true := by
  unfold Contact.init at h
  split_ifs at h with h1 h2 h3 h4 h5 h6 h7
  all_goals injection h with hc
  all_goals subst hc
  all_goals have hn : 0 < n.getStr.length := Nat.pos_of_ne_zero h4
  all_goals have hp : 0 < p.getStr.length := Nat.pos_of_ne_zero h5
  · rcases Nat.eq_zero_or_pos (e.getStr.length) with hz | hpos
    · simp [contactWF, hz, hn, hp]
    · have hv : validate_email e.getStr = true := by
        by_contra hv
        rw [Bool.not_eq_true] at hv
        exact h6 (by simp [h7, hpos, hv])
      simp [contactWF, hn, hp, hv]
  · simp [contactWF, hn, hp]

/-- Creation preserves the record invariant. -/
theorem storeWF_create (st : Store) (n p e : PyVal) (h : StoreWF st = true) :
    StoreWF (create st n p e).1 = true := by
  unfold create
  cases hi : Contact.init n p e with
  | error er => simpa using h
  | ok c =>
    simp only [StoreWF, List.all_append, List.all_cons, List.all_nil]
    unfold StoreWF at h
    simp [h, contact_init_ok_wf _ _ _ _ hi]

/-- Each import row preserves the record invariant. -/
theorem storeWF_importRow (st : Store) (row : List String)
    (h : StoreWF st = true) : StoreWF (importRow st row).1 = true := by
  unfold importRow
  split
  · simpa using h
  · split
    · simpa using h
    · exact storeWF_create _ _ _ _ h

/-- The import loop preserves the record invariant. -/
theorem storeWF_importFold (rows : List (List String)) :
    ∀ acc : Store × Nat × Bool, StoreWF acc.1 = true →
      StoreWF ((rows.foldl importStep acc).1) = true := by
  induction rows with
  | nil => intro acc h; exact h
  | cons row rest ih =>
    intro acc h
    simp only [List.foldl_cons]
    apply ih
    unfold importStep
    cases hr : importRow acc.1 row with
    | mk st1 err =>
      have hwf : StoreWF st1 = true := by
        have hx := storeWF_importRow acc.1 row h
        rw [hr] at hx
        exact hx
      cases err <;> simpa using hwf

/-- Every menu action preserves the record invariant. -/
theorem storeWF_applyAction (st : Store) (a : Action) (h : StoreWF st = true) :
    StoreWF (applyAction st a) = true := by
  cases a with
  | createC n p e => exact storeWF_create _ _ _ _ h
  | deleteC idd =>
    simp only [applyAction]
    cases hd : deleteContact st idd with
    | none => exact h
    | some st1 =>
      unfold deleteContact at hd
      split at hd
      · injection hd with hd1
        subst hd1
        rw [StoreWF, List.all_eq_true] at h ⊢
        intro x hx
        exact h x (List.mem_of_mem_filter hx)
      · cases hd
  | searchC q => exact h
  | exportC => exact h
  | importC rows => exact storeWF_importFold _ _ h

/-- C2: after any sequence of menu actions from the initial state, every
stored record satisfies the invariant: non-empty name and phone, and an
email that is absent, empty, or passes the email-syntax check. -/
theorem all_stored_contacts_wf (acts : List Action) :
    StoreWF (runActions acts) = true := by
  unfold runActions
  have hgen : ∀ (l : List Action) (st : Store), StoreWF st = true →
      StoreWF (l.foldl applyAction st) = true := by
    intro l
    induction l with
    | nil => intro st h; exact h
    | cons a t ih => intro st h; exact ih _ (storeWF_applyAction _ _ h)
  exact hgen acts initStore rfl

/-- The identifier invariant: every key in the store is strictly below
`next_id`, and the keys are pairwise distinct. -/
def idsWF (st : Store) : Prop :=
  (∀ p ∈ st.contacts, p.1 < st.next_id) ∧
  (st.contacts.map (fun p => p.1)).Nodup

/-- Creation preserves the identifier invariant. -/
theorem idsWF_create (st : Store) (n p e : PyVal) (h : idsWF st) :
    idsWF (create st n p e).1 := by
  unfold create
  cases hi : Contact.init n p e with
  | error er => exact h
  | ok c =>
    obtain ⟨hb, hd⟩ := h
    constructor
    · intro q hq
      rcases List.mem_append.mp hq with hq | hq
      · exact Nat.lt_succ_of_lt (hb q hq)
      · simp only [List.mem_singleton] at hq
        subst hq
        exact Nat.lt_succ_self _
    · simp only [List.map_append, List.map_cons, List.map_nil]
      rw [List.nodup_append]
      refine ⟨hd, List.nodup_singleton _, ?_⟩
      intro x hx hx1
      simp only [List.mem_singleton] at hx1
      subst hx1
      obtain ⟨q, hq, hq1⟩ := List.mem_map.mp hx
      exact absurd (hq1 ▸ hb q hq) (Nat.lt_irrefl _)

/-- Each import row preserves the identifier invariant. -/
theorem idsWF_importRow (st : Store) (row : List String) (h : idsWF st) :
    idsWF (importRow st row).1 := by
  unfold importRow
  split
  · exact h
  · split
    · exact h
    · exact idsWF_create _ _ _ _ h

/-- The import loop preserves the identifier invariant. -/
theorem idsWF_importFold (rows : List (List String)) :
    ∀ acc : Store × Nat × Bool, idsWF acc.1 →
      idsWF ((rows.foldl importStep acc).1) := by
  induction rows with
  | nil => intro acc h; exact h
  | cons row rest ih =>
    intro acc h
    simp only [List.foldl_cons]
    apply ih
    unfold importStep
    cases hr : importRow acc.1 row with
    | mk st1 err =>
      have hwf : idsWF st1 := by
        have hx := idsWF_importRow acc.1 row h
        rw [hr] at hx
        exact hx
      cases err <;> exact hwf

/-- Every menu action preserves the identifier invariant. -/
theorem idsWF_applyAction (st : Store) (a : Action) (h : idsWF st) :
    idsWF (applyAction st a) := by
  cases a with
  | createC n p e => exact idsWF_create _ _ _ _ h
  | deleteC idd =>
    simp only [applyAction]
    cases hd : deleteContact st idd with
    | none => exact h
    | some st1 =>
      unfold deleteContact at hd
      split at hd
      · injection hd with hd1
        subst hd1
        obtain ⟨hb, hn⟩ := h
        constructor
        · intro q hq
          exact hb q (List.mem_of_mem_filter hq)
        · exact hn.sublist (List.Sublist.map _ (List.filter_sublist _))
      · cases hd
  | searchC q => exact h
  | exportC => exact h
  | importC rows => exact idsWF_importFold _ _ h

/-- A successful `create` appends exactly one record, keyed by the current
`next_id`, and bumps the counter by one. -/
theorem create_ok_eq (st : Store) (n p e : PyVal)
    (h : (create st n p e).2 = Option.none) :
    ∃ c, create st n p e =
      (⟨st.contacts ++ [(st.next_id, c)], st.next_id + 1⟩, Option.none) := by
  unfold create at h ⊢
  cases hi : Contact.init n p e with
  | error er => rw [hi] at h; simp at h
  | ok c => exact ⟨c, rfl⟩

/-- C6: `next_id` starts at 0; a successful creation (interactive or a
freshly imported row) appends its record under the current `next_id` and increments
the counter by exactly 1; a failed creation, a failed import row, a delete,
a search and an export leave the counter unchanged; and after any sequence
of actions every stored key is strictly below `next_id` and the keys are
pairwise distinct (assigned ids are never reused). -/
theorem next_id_discipline (acts : List Action) (st : Store) (n p e : PyVal)
    (row : List String) (idd : Nat) (q : String) :
    initStore.next_id = 0 ∧
    (∀ c, Contact.init n p e = .ok c →
      create st n p e = (⟨st.contacts ++ [(st.next_id, c)], st.next_id + 1⟩, Option.none)) ∧
    ((create st n p e).2.isSome → (create st n p e).1 = st) ∧
    ((importRow st row).2 = Option.none →
      (importRow st row).1.next_id = st.next_id + 1 ∧
      (importRow st row).1.contacts.length = st.contacts.length + 1) ∧
    ((importRow st row).2.isSome → (importRow st row).1 = st) ∧
    ((applyAction st (Action.deleteC idd)).next_id = st.next_id) ∧
    (applyAction st (Action.searchC q) = st) ∧
    (applyAction st Action.exportC = st) ∧
    idsWF (runActions acts) := by
  refine ⟨rfl, ?_, ?_, ?_, ?_, ?_, rfl, rfl, ?_⟩
  · intro c hc
    unfold create
    rw [hc]
  · intro hs
    unfold create at hs ⊢
    cases hi : Contact.init n p e with
    | error er => rfl
    | ok c => rw [hi] at hs; simp at hs
  · intro hs
    cases row with
    | nil => simp [importRow] at hs
    | cons a t =>
      cases t with
      | nil => simp [importRow] at hs
      | cons b u =>
        have hrw : importRow st (a :: b :: u) =
            create st (PyVal.str a) (PyVal.str b)
              (match u.get? 0 with
               | some e2 => PyVal.str e2
               | Option.none => PyVal.none) := rfl
        rw [hrw] at hs ⊢
        obtain ⟨c, hcr⟩ := create_ok_eq _ _ _ _ hs
        rw [hcr]
        exact ⟨rfl, by simp⟩
  · intro hs
    rw [Option.isSome_iff_exists] at hs
    obtain ⟨er, her⟩ := hs
    have hpair : importRow st row = ((importRow st row).1, some er) := by
      rw [← her]
    exact importRow_error_eq _ _ _ _ hpair
  · simp only [applyAction]
    cases hd : deleteContact st idd with
    | none => rfl
    | some st1 =>
      unfold deleteContact at hd
      split at hd
      · injection hd with hd1
        subst hd1
        rfl
      · cases hd
  · have hgen : ∀ (l : List Action) (st0 : Store), idsWF st0 →
        idsWF (l.foldl applyAction st0) := by
      intro l
      induction l with
      | nil => intro st0 h; exact h
      | cons a t ih => intro st0 h; exact ih _ (idsWF_applyAction _ _ h)
    exact hgen acts initStore ⟨fun q hq => absurd hq (List.not_mem_nil q), List.nodup_nil⟩

/-- C6 witness: at concrete inputs, a successful create appends under the
current counter and bumps it, a failed create and a failed import row leave
the store alone, and an imported row bumps the counter by one. -/
theorem next_id_discipline_witness :
    create ⟨[], 5⟩ (PyVal.str "Ada") (PyVal.str "55") PyVal.none =
      (⟨[(5, ⟨"Ada", "55", Option.none⟩)], 6⟩, Option.none) ∧
    (create ⟨[], 5⟩ (PyVal.str "") (PyVal.str "55") PyVal.none).1 = ⟨[], 5⟩ ∧
    (importRow ⟨[], 5⟩ ["Zed", "123", ""]).1.next_id = 6 ∧
    (importRow ⟨[], 5⟩ ["Zed"]).1 = ⟨[], 5⟩ :=
  have h1 := next_id_discipline [] ⟨[], 5⟩ (PyVal.str "Ada") (PyVal.str "55")
    PyVal.none ["Zed", "123", ""] 0 "q"
  have h2 := next_id_discipline [] ⟨[], 5⟩ (PyVal.str "") (PyVal.str "55")
    PyVal.none ["Zed"] 0 "q"
  ⟨h1.2.1 ⟨"Ada", "55", Option.none⟩ rfl,
   h2.2.2.1 (by decide),
   (h1.2.2.2.1 rfl).1,
   h2.2.2.2.2.1 (by decide)⟩

/-- The loop body, when the row fails. -/
theorem importStep_error (st : Store) (c : Nat) (f : Bool) (row : List String)
    (st1 : Store) (er : ContactValidationException)
    (h : importRow st row = (st1, some er)) :
    importStep (st, c, f) row = (st1, c, true) := by
  unfold importStep
  rw [show ((st, c, f) : Store × Nat × Bool).1 = st from rfl, h]

/-- The loop body, when the row succeeds. -/
theorem importStep_ok (st : Store) (c : Nat) (f : Bool) (row : List String)
    (st1 : Store) (h : importRow st row = (st1, Option.none)) :
    importStep (st, c, f) row = (st1, c + 1, f) := by
  unfold importStep
  rw [show ((st, c, f) : Store × Nat × Bool).1 = st from rfl, h]

/-- Running the import loop from an arbitrary starting count and flag: the
final store is the same, counts add, and the flag accumulates by
disjunction. -/
theorem foldl_importStep_shift (rows : List (List String)) :
    ∀ (st : Store) (c : Nat) (f : Bool),
      rows.foldl importStep (st, c, f) =
        ((rows.foldl importStep (st, 0, false)).1,
         c + (rows.foldl importStep (st, 0, false)).2.1,
         f || (rows.foldl importStep (st, 0, false)).2.2) := by
  induction rows with
  | nil => intro st c f; simp
  | cons row rest ih =>
    intro st c f
    simp only [List.foldl_cons]
    cases hr : importRow st row with
    | mk st1 err =>
      cases err with
      | none =>
        rw [importStep_ok st c f row st1 hr, importStep_ok st 0 false row st1 hr]
        rw [ih st1 (c + 1) f, ih st1 (0 + 1) false]
        simp [Nat.add_assoc, Nat.add_comm, Nat.add_left_comm]
      | some er =>
        rw [importStep_error st c f row st1 er hr,
          importStep_error st 0 false row st1 er hr]
        rw [ih st1 c true, ih st1 0 true]
        simp

/-- The import loop never counts more rows than it was given, and its error
flag is set exactly when some given row did not count. -/
theorem foldl_importStep_count_flag (rows : List (List String)) :
    ∀ st : Store,
      (rows.foldl importStep (st, 0, false)).2.1 ≤ rows.length ∧
      ((rows.foldl importStep (st, 0, false)).2.2 =
        decide ((rows.foldl importStep (st, 0, false)).2.1 < rows.length)) := by
  induction rows with
  | nil => intro st; simp
  | cons row rest ih =>
    intro st
    simp only [List.foldl_cons, List.length_cons]
    cases hr : importRow st row with
    | mk st1 err =>
      cases err with
      | none =>
        simp only [importStep_ok st 0 false row st1 hr,
          foldl_importStep_shift rest st1 (0 + 1) false]
        obtain ⟨ih1, ih2⟩ := ih st1
        constructor
        · show (0 + 1) + (rest.foldl importStep (st1, 0, false)).2.1 ≤ rest.length + 1
          omega
        · show (false || (rest.foldl importStep (st1, 0, false)).2.2) =
            decide ((0 + 1) + (rest.foldl importStep (st1, 0, false)).2.1 < rest.length + 1)
          rw [Bool.false_or, ih2, decide_eq_decide]
          omega
      | some er =>
        simp only [importStep_error st 0 false row st1 er hr,
          foldl_importStep_shift rest st1 0 true]
        obtain ⟨ih1, ih2⟩ := ih st1
        constructor
        · show 0 + (rest.foldl importStep (st1, 0, false)).2.1 ≤ rest.length + 1
          omega
        · show (true || (rest.foldl importStep (st1, 0, false)).2.2) =
            decide (0 + (rest.foldl importStep (st1, 0, false)).2.1 < rest.length + 1)
          rw [Bool.true_or]
          have hlt : 0 + (rest.foldl importStep (st1, 0, false)).2.1 < rest.length + 1 := by
            omega
          exact (decide_eq_true hlt).symm

/-- C7: rows are validated independently: a row with no first field raises
the empty-name error and a row with a first but no second field raises the
empty-phone error (the store untouched either way); a valid row is appended
under a fresh id; a failing non-blank row is skipped while the rest of
the import proceeds exactly as if the row were absent, except that the error
flag is set; and the reported count is at most the number of non-blank rows,
with the flag set exactly when some non-blank row failed to count. -/
theorem import_rows_independent (st : Store) (row : List String)
    (rows rest : List (List String)) :
    (row.get? 0 = Option.none →
      importRow st row = (st, some ContactValidationException.empty_name)) ∧
    (∀ nm, row.get? 0 = some nm → row.get? 1 = Option.none →
      importRow st row = (st, some ContactValidationException.empty_phone)) ∧
    ((importRow st row).2 = Option.none →
      ∃ c, (importRow st row).1 = ⟨st.contacts ++ [(st.next_id, c)], st.next_id + 1⟩) ∧
    (row ≠ [] → ∀ er, (importRow st row).2 = some er →
      action_import st (row :: rest) =
        ((action_import st rest).1, (action_import st rest).2.1, true)) ∧
    ((action_import st rows).2.1 ≤ (rows.filter (fun r => r ≠ [])).length) ∧
    ((action_import st rows).2.2 =
      decide ((action_import st rows).2.1 < (rows.filter (fun r => r ≠ [])).length)) := by
  refine ⟨?_, ?_, ?_, ?_, ?_, ?_⟩
  · intro h
    unfold importRow
    rw [h]
  · intro nm h0 h1
    unfold importRow
    rw [h0, h1]
  · intro hs
    cases row with
    | nil => simp [importRow] at hs
    | cons a t =>
      cases t with
      | nil => simp [importRow] at hs
      | cons b u =>
        have hrw : importRow st (a :: b :: u) =
            create st (PyVal.str a) (PyVal.str b)
              (match u.get? 0 with
               | some e2 => PyVal.str e2
               | Option.none => PyVal.none) := rfl
        rw [hrw] at hs ⊢
        obtain ⟨c, hcr⟩ := create_ok_eq _ _ _ _ hs
        rw [hcr]
        exact ⟨c, rfl⟩
  · intro hne er her
    have hpair : importRow st row = ((importRow st row).1, some er) :=
      Prod.ext rfl her
    have hst : (importRow st row).1 = st := importRow_error_eq _ _ _ _ hpair
    have hstep : importStep (st, 0, false) row = (st, 0, true) := by
      unfold importStep
      cases hr : importRow st row with
      | mk st1 e2 =>
        rw [hr] at her hst
        simp only at her hst
        subst her
        subst hst
        rfl
    unfold action_import
    rw [List.filter_cons_of_pos (by simpa using hne), List.foldl_cons, hstep,
      foldl_importStep_shift ((rest.filter (fun r => r ≠ []))) st 0 true]
    simp
  · exact (foldl_importStep_count_flag ((rows.filter (fun r => r ≠ []))) st).1
  · exact (foldl_importStep_count_flag ((rows.filter (fun r => r ≠ []))) st).2

/-- C7 witness: the empty row raises the empty-name error; the row
`["Ann"]` raises the empty-phone error; importing `["Ann"]` then a valid
row skips the first, imports the second, and sets the flag, which matches
the count-versus-rows characterization. -/
theorem import_rows_independent_witness :
    importRow initStore [] = (initStore, some ContactValidationException.empty_name) ∧
    importRow initStore ["Ann"] = (initStore, some ContactValidationException.empty_phone) ∧
    action_import initStore [["Ann"], ["Zed", "1", ""]] =
      ((action_import initStore [["Zed", "1", ""]]).1,
       (action_import initStore [["Zed", "1", ""]]).2.1, true) ∧
    (action_import initStore [["Ann"], ["Zed", "1", ""]]).2.2 =
      decide ((action_import initStore [["Ann"], ["Zed", "1", ""]]).2.1 <
        (([["Ann"], ["Zed", "1", ""]] : List (List String)).filter
          (fun r => r ≠ [])).length) :=
  ⟨(import_rows_independent initStore [] [] []).1 rfl,
   (import_rows_independent initStore ["Ann"] [] []).2.1 "Ann" rfl rfl,
   (import_rows_independent initStore ["Ann"] [] [["Zed", "1", ""]]).2.2.2.1
     (by decide) ContactValidationException.empty_phone rfl,
   (import_rows_independent initStore ["Ann"] [["Ann"], ["Zed", "1", ""]] []).2.2.2.2.2⟩

/-- What a contact becomes after an export/import round trip: name and phone
verbatim, the email collapsed to the exported column value (an absent email
becomes the empty string). -/
def roundtripContact (c : Contact) : Contact :=
  ⟨c.name, c.phone, some (emailField c.email)⟩

/-- Consecutively keyed fresh entries, starting at `base`. -/
def freshEntries (base : Nat) : List Contact → List (Nat × Contact)
  | [] => []
  | c :: cs => (base, c) :: freshEntries (base + 1) cs

/-- Validating a contact's own exported row succeeds and rebuilds exactly
its round-trip image. -/
theorem contact_init_export_row (c : Contact) (h : contactWF c = true) :
    Contact.init (PyVal.str c.name) (PyVal.str c.phone)
        (PyVal.str (emailField c.email)) = .ok (roundtripContact c) := by
  unfold contactWF at h
  rw [Bool.and_eq_true, Bool.and_eq_true] at h
  obtain ⟨⟨hn, hp⟩, he⟩ := h
  have hn' : ¬ (c.name.length = 0) := by
    have := of_decide_eq_true hn
    omega
  have hp' : ¬ (c.phone.length = 0) := by
    have := of_decide_eq_true hp
    omega
  cases hce : c.email with
  | none =>
    unfold Contact.init
    simp [PyVal.isStr, PyVal.isNone, PyVal.getStr, hn', hp', hce, emailField,
      roundtripContact]
  | some e =>
    rw [hce] at he
    unfold Contact.init
    simp only [Bool.or_eq_true, decide_eq_true_eq] at he
    rcases he with hz' | hv
    · simp [PyVal.isStr, PyVal.isNone, PyVal.getStr, hn', hp', hce, emailField,
        roundtripContact, hz']
    · simp [PyVal.isStr, PyVal.isNone, PyVal.getStr, hn', hp', hce, emailField,
        roundtripContact, hv]

/-- The import loop, run over exactly the rows exported from a list of
well-formed contacts, appends their round-trip images under consecutive
fresh ids, counts every row, and never sets the error flag. -/
theorem import_of_export_go (l : List (Nat × Contact)) :
    ∀ (A : List (Nat × Contact)) (base cnt : Nat) (flag : Bool),
      (∀ q ∈ l, contactWF q.2 = true) →
      (l.map (fun q => [q.2.name, q.2.phone, emailField q.2.email])).foldl importStep
          (⟨A, base⟩, cnt, flag) =
        (⟨A ++ freshEntries base (l.map (fun q => roundtripContact q.2)),
          base + l.length⟩,
         cnt + l.length, flag) := by
  induction l with
  | nil => intro A base cnt flag _; simp [freshEntries]
  | cons q t ih =>
    intro A base cnt flag hwf
    simp only [List.map_cons, List.foldl_cons]
    have hrow : importRow ⟨A, base⟩ [q.2.name, q.2.phone, emailField q.2.email] =
        (⟨A ++ [(base, roundtripContact q.2)], base + 1⟩, Option.none) := by
      have hini := contact_init_export_row q.2 (hwf q (List.mem_cons_self q t))
      show create ⟨A, base⟩ (PyVal.str q.2.name) (PyVal.str q.2.phone)
          (PyVal.str (emailField q.2.email)) = _
      unfold create
      rw [hini]
    rw [importStep_ok ⟨A, base⟩ cnt flag _ _ hrow,
      ih _ _ _ _ (fun q2 hq2 => hwf q2 (List.mem_cons_of_mem _ hq2))]
    simp [freshEntries, List.append_assoc, Nat.add_assoc, Nat.add_comm,
      Nat.add_left_comm]

/-- C4 (amended): exporting a store whose records satisfy the invariant
and importing the result yields exactly one fresh contact per original, under
consecutive fresh ids, with name and phone equal to the original's and the
email equal except that an absent email comes back as the empty string; the
count equals the number of contacts and no row errors. -/
theorem export_import_roundtrip (st : Store) (h : StoreWF st = true) :
    action_import st (action_export st) =
      (⟨st.contacts ++
          freshEntries st.next_id (st.contacts.map (fun q => roundtripContact q.2)),
        st.next_id + st.contacts.length⟩,
       st.contacts.length, false) := by
  obtain ⟨A, base⟩ := st
  unfold action_import action_export
  have hfilter : (((⟨A, base⟩ : Store).contacts.map
        (fun q => [q.2.name, q.2.phone, emailField q.2.email])).filter
      (fun r => r ≠ [])) =
      (⟨A, base⟩ : Store).contacts.map
        (fun q => [q.2.name, q.2.phone, emailField q.2.email]) := by
    apply List.filter_eq_self.mpr
    intro r hr
    obtain ⟨q, _, hq1⟩ := List.mem_map.mp hr
    subst hq1
    simp
  rw [hfilter]
  have hwf : ∀ q ∈ A, contactWF q.2 = true := by
    rw [StoreWF, List.all_eq_true] at h
    exact h
  rw [import_of_export_go A A base 0 false hwf]
  simp

/-- C4 amended-claim witness: the concrete one-contact store round-trips to
itself plus one fresh contact whose absent email came back empty. -/
theorem export_import_roundtrip_witness :
    action_import ⟨[(0, ⟨"Ada", "5", Option.none⟩)], 1⟩
        (action_export ⟨[(0, ⟨"Ada", "5", Option.none⟩)], 1⟩) =
      (⟨[(0, ⟨"Ada", "5", Option.none⟩), (1, ⟨"Ada", "5", some ""⟩)], 2⟩, 1, false) :=
  export_import_roundtrip ⟨[(0, ⟨"Ada", "5", Option.none⟩)], 1⟩ (by decide)

/-- The store used to refute C4 as stated: one contact with an absent
email. -/
def c4Store : Store := ⟨[(0, ⟨"Ada", "5", Option.none⟩)], 1⟩

/-- C4 counterexample: after exporting and re-importing `c4Store`, the
emails held in the store are `[None, ""]` — the imported copy's email is the
empty string, not the original absent email, so the imported contact's
fields do not all equal the original's. -/
theorem export_import_email_changed :
    (action_import c4Store (action_export c4Store)).1.contacts.map
        (fun q => q.2.email) = [Option.none, some ""] ∧
    (action_import c4Store (action_export c4Store)).1.contacts.map
        (fun q => q.2.email) ≠
      c4Store.contacts.map (fun q => q.2.email) ++
        c4Store.contacts.map (fun q => q.2.email) := by
  decide

end PhoneBook
